import Mathlib

/-!
# go-rcon: verification of the RCON packet codec and connection layer

Shallow embedding of the go-rcon Minecraft RCON client.  The core of the
repository is the `rcon` package: the packet codec (`NewPacket`, `Marshal`,
`Unmarshal`) and the connection layer (`Conn` with `NewConn`, `authenticate`,
`SendCommand`, `readPackets`, `readPacket`, `Close`, `IsClosed`).  The
repository also carries an older generation of the codec in its `packet`
package, whose `Unmarshal` additionally validates the kind field; it is
embedded separately under the `packet` namespace.

Bytes are modelled as `Nat` values below 256; Go strings are byte sequences,
modelled as `List Nat`.  Go's `uint32` values are `Nat` with reduction
modulo `2 ^ 32` applied exactly where Go performs a conversion; `int32`
values are `Int` in the interval `[-2^31, 2^31)`.
-/

/-- Little-endian serialization of a `uint32` value, as written by
`binary.LittleEndian.PutUint32` (four bytes, least significant first;
values at or above `2 ^ 32` are implicitly reduced because only four
bytes are emitted). -/
def u32le (n : Nat) : List Nat :=
  [n % 256, n / 256 % 256, n / 65536 % 256, n / 16777216 % 256]

/-- Little-endian `uint32` read at offset `off` of a byte list, as done by
`binary.LittleEndian.Uint32(data[off : off+4])`.  Out-of-range reads
default to 0; every use in the embedding is guarded by a length check,
exactly as in the source. -/
def leU32At (data : List Nat) (off : Nat) : Nat :=
  data.getD off 0 + 256 * data.getD (off + 1) 0 + 65536 * data.getD (off + 2) 0 +
    16777216 * data.getD (off + 3) 0

/-- Go conversion `uint32(i)` applied to an `int32` value. -/
def intToUInt32 (i : Int) : Nat :=
  (i % 4294967296).toNat

/-- Go conversion `int32(u)` applied to a `uint32` value (two's complement
reinterpretation). -/
def uint32ToInt32 (n : Nat) : Int :=
  if n < 2147483648 then (n : Int) else (n : Int) - 4294967296

/-- Wrap-around of `int32` arithmetic, used for the `count++` increment of
the process-wide packet-id counter. -/
def int32wrap (i : Int) : Int :=
  uint32ToInt32 ((i % 4294967296).toNat)

/-- `unicode.MaxASCII`: the largest single-byte (ASCII-range) character. -/
def maxASCII : Nat := 127

/-- Byte representation of an ASCII Go string literal. -/
def strBytes (s : String) : List Nat :=
  s.data.map Char.toNat

namespace rcon

/-- `Packet` of the core `rcon` package: `Length uint32`, `ID int32`,
`Kind uint32`, `Payload string`. -/
structure Packet where
  Length : Nat
  ID : Int
  Kind : Nat
  Payload : List Nat
  deriving DecidableEq

/-- Packet kind `ResponsePacket` (iota value 0). -/
def ResponsePacket : Nat := 0

/-- Packet kind `CommandPacket` (iota value 2). -/
def CommandPacket : Nat := 2

/-- Packet kind `LoginPacket` (iota value 3). -/
def LoginPacket : Nat := 3

/-- Packet kind `TerminationPacket` (iota value 5). -/
def TerminationPacket : Nat := 5

/-- `TerminalResponse`: the sentinel payload the server returns for the
unrecognized termination request kind. -/
def TerminalResponse : List Nat := strBytes "Unknown request 5"

/-- `NewPacket(kind, payload)`: increments the process-wide `int32` counter
`count` and builds a packet with `Length = uint32(len(payload) + 10)` and
`ID = count`.  The counter is threaded explicitly; the result pairs the
post-increment counter with the packet. -/
def NewPacket (count : Int) (kind : Nat) (payload : List Nat) : Int × Packet :=
  let c := int32wrap (count + 1)
  (c, { Length := (payload.length + 10) % 4294967296, ID := c, Kind := kind, Payload := payload })

/-- `Marshal(p)`: rejects a nil packet, rejects a `Length` field differing
from `uint32(len(Payload) + 10)`, rejects payload bytes above
`unicode.MaxASCII`, and otherwise emits `Length`, `ID`, `Kind` as
little-endian 32-bit fields followed by the payload bytes and two zero
bytes. -/
def Marshal : Option Packet → Except String (List Nat)
  | none => .error "nil packet provided"
  | some p =>
    if p.Length ≠ (p.Payload.length + 10) % 4294967296 then
      .error "invalid packet provided"
    else if p.Payload.any (fun b => decide (maxASCII < b)) then
      .error "payload contains non-ASCII characters"
    else
      .ok (u32le p.Length ++ u32le (intToUInt32 p.ID) ++ u32le p.Kind ++ p.Payload ++ [0, 0])

/-- `Unmarshal(data, p)`: requires at least 14 bytes ending in two zero
bytes, reads `length` and requires `uint32(len(data)) == length + 4`,
reads `id` and `kind` (the kind value is converted with `Kind(...)` and is
not validated in this package), and decodes `data[12 : len(data)-2]` as
the payload, rejecting bytes above `unicode.MaxASCII`.  The Go function
writes through an out-pointer (and rejects a nil pointer); the embedding
returns the decoded packet, which is how every call site uses it (a fresh
`&Packet{}` is always passed). -/
def Unmarshal (data : List Nat) : Except String Packet :=
  if data.length < 14 ∨ data.getD (data.length - 1) 0 ≠ 0 ∨ data.getD (data.length - 2) 0 ≠ 0 then
    .error "invalid packet bytes"
  else
    let length := leU32At data 0
    if data.length % 4294967296 ≠ (length + 4) % 4294967296 then
      .error "incorrect packet length"
    else
      let id := uint32ToInt32 (leU32At data 4)
      let kind := leU32At data 8
      let b := (data.drop 12).take (data.length - 14)
      if b.any (fun x => decide (maxASCII < x)) then
        .error "payload contains non-ASCII characters"
      else
        .ok { Length := length, ID := id, Kind := kind, Payload := b }

/-- State of a `Conn` together with its transport: the `isClosed` flag, a
flag recording whether the underlying transport has been closed, the
process-wide packet-id counter, and the log of byte strings written to the
transport, in order.  The background reader and the delivery channel
`packets` are modelled by passing the list of decoded packets the reader
delivers, in arrival order, to the operations that drain the channel;
transport writes are modelled as succeeding (transport I/O failures are
outside the deterministic embedding). -/
structure ConnSt where
  isClosed : Bool
  transportClosed : Bool
  count : Int
  written : List (List Nat)
  deriving DecidableEq

/-- `Conn.IsClosed`. -/
def IsClosed (c : ConnSt) : Bool :=
  c.isClosed

/-- `Conn.Close`: sets the `isClosed` flag and closes the transport. -/
def Close (c : ConnSt) : ConnSt :=
  { c with isClosed := true, transportClosed := true }

/-- `Conn.writePacket`: marshals the packet and writes the bytes to the
transport; a marshalling error is returned without writing. -/
def writePacket (st : ConnSt) (p : Packet) : ConnSt × Option String :=
  match Marshal (some p) with
  | .error e => (st, some e)
  | .ok data => ({ st with written := st.written ++ [data] }, none)

/-- Loop body of `Conn.readPackets`, ranging over the packets delivered on
the channel: while the accumulated group is empty a termination packet
(payload `"MESSAGE-END"`) is marshalled and written; a delivered packet
whose payload equals `TerminalResponse` ends the group and is discarded;
every other packet is appended to the group. -/
def readPacketsAux (st : ConnSt) (acc : List Packet) : List Packet → ConnSt × List Packet
  | [] => (st, acc)
  | p :: rest =>
    let st1 :=
      if acc.isEmpty then
        let r := NewPacket st.count TerminationPacket (strBytes "MESSAGE-END")
        match Marshal (some r.2) with
        | .ok tb => { st with count := r.1, written := st.written ++ [tb] }
        | .error _ => { st with count := r.1 }
      else st
    if p.Payload = TerminalResponse then (st1, acc)
    else readPacketsAux st1 (acc ++ [p]) rest

/-- `Conn.readPackets`: collects the response group from the delivery
channel, starting from an empty group. -/
def readPackets (st : ConnSt) (delivered : List Packet) : ConnSt × List Packet :=
  readPacketsAux st [] delivered

/-- `Conn.SendCommand`: fails fast with `"connection closed"` on a closed
connection (before any packet is built or any I/O is attempted); otherwise
builds a `CommandPacket`, writes it, collects the response group, and
returns the concatenation of the group's payloads.  A write failure closes
the connection. -/
def SendCommand (st : ConnSt) (command : List Nat) (delivered : List Packet) :
    ConnSt × Except String (List Nat) :=
  if st.isClosed then (st, .error "connection closed")
  else
    let r := NewPacket st.count CommandPacket command
    let st1 : ConnSt := { st with count := r.1 }
    match writePacket st1 r.2 with
    | (st2, some e) => (Close st2, .error ("failed writing packet: " ++ e))
    | (st2, none) =>
      let rr := readPackets st2 delivered
      (rr.1, .ok (rr.2.foldl (fun a p => a ++ p.Payload) []))

/-- `Conn.authenticate`: builds a `LoginPacket` carrying the password,
writes it, collects the response group, and succeeds exactly when the
group is a single packet whose `ID` equals the request's `ID`. -/
def authenticate (st : ConnSt) (password : List Nat) (delivered : List Packet) :
    ConnSt × Option String :=
  let r := NewPacket st.count LoginPacket password
  let st1 : ConnSt := { st with count := r.1 }
  match writePacket st1 r.2 with
  | (st2, some e) => (st2, some ("failed writing packet: " ++ e))
  | (st2, none) =>
    let rr := readPackets st2 delivered
    match rr.2 with
    | [p] => if p.ID ≠ r.2.ID then (rr.1, some "invalid password/response") else (rr.1, none)
    | _ => (rr.1, some "invalid password/response")

/-- `NewConn`: wraps a fresh transport (open flags cleared, given counter),
starts the background reader, and authenticates.  On authentication
failure the connection is closed and no connection object is returned to
the caller; on success the connection object is returned.  The first
component is the final state of the underlying connection, the second is
what the caller receives. -/
def NewConn (count : Int) (password : List Nat) (delivered : List Packet) :
    ConnSt × Option ConnSt :=
  let st : ConnSt := { isClosed := false, transportClosed := false, count := count, written := [] }
  match authenticate st password delivered with
  | (st1, some _) => (Close st1, none)
  | (st1, none) => (st1, some st1)

/-- Continuation condition of the framing loop in `Conn.readPacket`: keep
reading while fewer than 14 bytes are buffered or the last two buffered
bytes are not both zero. -/
def readLoopCont (data : List Nat) : Bool :=
  decide (data.length < 14) || decide (data.getD (data.length - 1) 0 ≠ 0) ||
    decide (data.getD (data.length - 2) 0 ≠ 0)

/-- Framing loop of `Conn.readPacket`: bytes are taken one at a time from
the transport stream (modelled as the list of bytes the transport will
deliver) until the continuation condition fails; exhausting the stream
while the condition still holds is a read error (`none`). -/
def readPacketLoop : List Nat → List Nat → Option (List Nat)
  | data, [] => if readLoopCont data then none else some data
  | data, b :: rest =>
    if readLoopCont data then readPacketLoop (data ++ [b]) rest else some data

/-- `Conn.readPacket`: frames a byte sequence off the transport with
`readPacketLoop` starting from an empty buffer, then unmarshals it. -/
def readPacket (stream : List Nat) : Except String Packet :=
  match readPacketLoop [] stream with
  | none => .error "read failed"
  | some data => Unmarshal data

end rcon

namespace packet

/-- `Packet` of the legacy `packet` package: here `ID` is `uint32`. -/
structure Packet where
  Length : Nat
  ID : Nat
  Kind : Nat
  Payload : List Nat
  deriving DecidableEq

/-- `Unmarshal` of the legacy `packet` package: same structural checks as
the core codec, but the kind value is dispatched through a `switch` that
rejects any value outside {0, 2, 3, 5} with `"invalid packet type"`. -/
def Unmarshal (data : List Nat) : Except String Packet :=
  if data.length < 14 ∨ data.getD (data.length - 1) 0 ≠ 0 ∨ data.getD (data.length - 2) 0 ≠ 0 then
    .error "invalid packet bytes"
  else
    let length := leU32At data 0
    if data.length % 4294967296 ≠ (length + 4) % 4294967296 then
      .error "incorrect packet length"
    else
      let id := leU32At data 4
      let kind := leU32At data 8
      if kind ≠ 0 ∧ kind ≠ 2 ∧ kind ≠ 3 ∧ kind ≠ 5 then
        .error "invalid packet type"
      else
        let b := (data.drop 12).take (data.length - 14)
        if b.any (fun x => decide (maxASCII < x)) then
          .error "payload contains non-ASCII characters"
        else
          .ok { Length := length, ID := id, Kind := kind, Payload := b }

end packet

/-! ## Shared lemmas about the byte-level helpers -/

theorem leU32At_field0 (L I K : Nat) (P Q : List Nat) :
    leU32At (u32le L ++ u32le I ++ u32le K ++ P ++ Q) 0 = L % 4294967296 := by
  show L % 256 + 256 * (L / 256 % 256) + 65536 * (L / 65536 % 256) +
      16777216 * (L / 16777216 % 256) = L % 4294967296
  omega

theorem leU32At_field1 (L I K : Nat) (P Q : List Nat) :
    leU32At (u32le L ++ u32le I ++ u32le K ++ P ++ Q) 4 = I % 4294967296 := by
  show I % 256 + 256 * (I / 256 % 256) + 65536 * (I / 65536 % 256) +
      16777216 * (I / 16777216 % 256) = I % 4294967296
  omega

theorem leU32At_field2 (L I K : Nat) (P Q : List Nat) :
    leU32At (u32le L ++ u32le I ++ u32le K ++ P ++ Q) 8 = K % 4294967296 := by
  show K % 256 + 256 * (K / 256 % 256) + 65536 * (K / 65536 % 256) +
      16777216 * (K / 16777216 % 256) = K % 4294967296
  omega

theorem intToUInt32_lt (i : Int) : intToUInt32 i < 4294967296 := by
  unfold intToUInt32
  omega

theorem uint32ToInt32_intToUInt32 (i : Int) (h1 : -2147483648 ≤ i) (h2 : i < 2147483648) :
    uint32ToInt32 (intToUInt32 i) = i := by
  unfold uint32ToInt32 intToUInt32
  split <;> omega

theorem getD_pad (X : List Nat) :
    (X ++ [0, 0]).getD (X.length + 1) 0 = 0 ∧ (X ++ [0, 0]).getD X.length 0 = 0 := by
  constructor
  · rw [List.getD_append_right _ _ _ _ (by omega)]
    simp
  · rw [List.getD_append_right _ _ _ _ (by omega)]
    simp

theorem getD_lt_of_forall (l : List Nat) (i : Nat) (h : ∀ b ∈ l, b < 256) :
    l.getD i 0 < 256 := by
  induction l generalizing i with
  | nil => simp [List.getD]
  | cons a t ih =>
    match i with
    | 0 => exact h a (by simp)
    | j + 1 =>
      simpa [List.getD] using ih j (fun b hb => h b (by simp [hb]))

theorem leU32At_lt (data : List Nat) (off : Nat) (h : ∀ b ∈ data, b < 256) :
    leU32At data off < 4294967296 := by
  unfold leU32At
  have h0 := getD_lt_of_forall data off h
  have h1 := getD_lt_of_forall data (off + 1) h
  have h2 := getD_lt_of_forall data (off + 2) h
  have h3 := getD_lt_of_forall data (off + 3) h
  omega

namespace rcon

/-! ## Codec lemmas -/

theorem marshal_ok (L : Nat) (I : Int) (K : Nat) (P : List Nat)
    (hlen : L = (P.length + 10) % 4294967296)
    (hascii : ∀ b ∈ P, b ≤ maxASCII) :
    Marshal (some ⟨L, I, K, P⟩) =
      Except.ok (u32le L ++ u32le (intToUInt32 I) ++ u32le K ++ P ++ [0, 0]) := by
  have hany : P.any (fun b => decide (maxASCII < b)) = false := by
    rw [List.any_eq_false]
    intro b hb
    simpa using hascii b hb
  simp [Marshal, hany, hlen]

theorem unmarshal_marshal_bytes (L : Nat) (I : Int) (K : Nat) (P : List Nat)
    (hL : L = P.length + 10) (hrep : P.length + 10 < 4294967296)
    (hascii : ∀ b ∈ P, b ≤ maxASCII)
    (hI1 : -2147483648 ≤ I) (hI2 : I < 2147483648) (hK : K < 4294967296) :
    Unmarshal (u32le L ++ u32le (intToUInt32 I) ++ u32le K ++ P ++ [0, 0]) =
      Except.ok ⟨L, I, K, P⟩ := by
  set data : List Nat := u32le L ++ u32le (intToUInt32 I) ++ u32le K ++ P ++ [0, 0] with hdata
  have hlen14 : data.length = P.length + 14 := by
    simp [hdata, u32le]
  have hXlen : (u32le L ++ u32le (intToUInt32 I) ++ u32le K ++ P).length = P.length + 12 := by
    simp [u32le]
  have hz1 : data.getD (data.length - 1) 0 = 0 := by
    rw [show data.length - 1 = (u32le L ++ u32le (intToUInt32 I) ++ u32le K ++ P).length + 1 by
      rw [hlen14, hXlen]
      omega]
    exact (getD_pad _).1
  have hz2 : data.getD (data.length - 2) 0 = 0 := by
    rw [show data.length - 2 = (u32le L ++ u32le (intToUInt32 I) ++ u32le K ++ P).length by
      rw [hlen14, hXlen]
      omega]
    exact (getD_pad _).2
  have hf0 : leU32At data 0 = L := by
    rw [hdata, leU32At_field0]
    omega
  have hf4 : leU32At data 4 = intToUInt32 I := by
    rw [hdata, leU32At_field1]
    have := intToUInt32_lt I
    omega
  have hf8 : leU32At data 8 = K := by
    rw [hdata, leU32At_field2]
    omega
  have hdrop : data.drop 12 = P ++ [0, 0] := by
    rw [hdata]
    rfl
  have htake : (data.drop 12).take (data.length - 14) = P := by
    rw [hdrop, hlen14, show P.length + 14 - 14 = P.length by omega, List.take_left]
  have hany : P.any (fun x => decide (maxASCII < x)) = false := by
    rw [List.any_eq_false]
    intro b hb
    simpa using hascii b hb
  rw [Unmarshal]
  rw [if_neg (by
    push_neg
    exact ⟨by omega, hz1, hz2⟩)]
  simp only [hf0, hf4, hf8, htake]
  rw [if_neg (by omega)]
  rw [if_neg (by simp [hany])]
  rw [uint32ToInt32_intToUInt32 I hI1 hI2]

/-! ## Claim theorems about the codec -/

/-- Claim C1: for every well-formed packet `p` — `Length = len(Payload) + 10` with the
length representable as `uint32`, every payload byte in the single-byte ASCII range,
and `ID`/`Kind` within their Go `int32`/`uint32` ranges — `Marshal` succeeds and
`Unmarshal` of the produced bytes returns a packet equal to `p` in all four fields. -/
theorem marshal_unmarshal_roundtrip (p : Packet)
    (hL : p.Length = p.Payload.length + 10)
    (hrep : p.Payload.length + 10 < 4294967296)
    (hascii : ∀ b ∈ p.Payload, b ≤ maxASCII)
    (hI1 : -2147483648 ≤ p.ID) (hI2 : p.ID < 2147483648)
    (hK : p.Kind < 4294967296) :
    ∃ data, Marshal (some p) = Except.ok data ∧ Unmarshal data = Except.ok p := by
  obtain ⟨L, I, K, P⟩ := p
  dsimp only at hL hrep hascii hI1 hI2 hK
  exact ⟨_, marshal_ok L I K P (by omega) hascii,
    unmarshal_marshal_bytes L I K P hL hrep hascii hI1 hI2 hK⟩

/-- Witness for the round-trip law at the packet `{12, 1, Command, "ok"}`. -/
theorem marshal_unmarshal_roundtrip_witness :
    ∃ data, Marshal (some ⟨12, 1, 2, strBytes "ok"⟩) = Except.ok data ∧
      Unmarshal data = Except.ok ⟨12, 1, 2, strBytes "ok"⟩ :=
  marshal_unmarshal_roundtrip ⟨12, 1, 2, strBytes "ok"⟩ (by decide) (by decide) (by decide)
    (by decide) (by decide) (by decide)

/-- Claim C4: `Marshal` rejects (with the `invalid packet provided` error, producing no
bytes) every packet whose `Length` field differs from `len(Payload) + 10`. -/
theorem marshal_rejects_bad_length (p : Packet)
    (hrep : p.Payload.length + 10 < 4294967296)
    (hne : p.Length ≠ p.Payload.length + 10) :
    Marshal (some p) = Except.error "invalid packet provided" := by
  obtain ⟨L, I, K, P⟩ := p
  dsimp only at hrep hne
  simp only [Marshal]
  rw [if_pos (by omega)]

/-- Witness for the length-invariant rejection at `{99, 1, Command, "ok"}`. -/
theorem marshal_rejects_bad_length_witness :
    Marshal (some ⟨99, 1, 2, strBytes "ok"⟩) = Except.error "invalid packet provided" :=
  marshal_rejects_bad_length ⟨99, 1, 2, strBytes "ok"⟩ (by decide) (by decide)

/-- Claim C5 counterexample: a 14-byte input that is structurally valid but carries the
reserved kind value 1 is accepted by the core codec's `Unmarshal`, which returns a
packet (with `Kind = 1`) instead of an error. -/
theorem unmarshal_accepts_reserved_kind :
    Unmarshal [10, 0, 0, 0, 7, 0, 0, 0, 1, 0, 0, 0, 0, 0] =
      Except.ok { Length := 10, ID := 7, Kind := 1, Payload := [] } := by
  rfl

/-- Claim C5 (amended): the core codec's `Unmarshal` performs no kind validation — any
otherwise structurally valid input decodes successfully, with `Kind` set to the raw
little-endian 32-bit value at offset 8 (reserved values 1 and 4 included); only the
legacy `packet` package's `Unmarshal` rejects kind values outside {0, 2, 3, 5} with
the `invalid packet type` error. -/
theorem unmarshal_kind_handling (data : List Nat)
    (hok : ¬(data.length < 14 ∨ data.getD (data.length - 1) 0 ≠ 0 ∨
      data.getD (data.length - 2) 0 ≠ 0))
    (hlen : data.length % 4294967296 = (leU32At data 0 + 4) % 4294967296)
    (hascii : ∀ b ∈ (data.drop 12).take (data.length - 14), b ≤ maxASCII) :
    Unmarshal data = Except.ok ⟨leU32At data 0, uint32ToInt32 (leU32At data 4),
      leU32At data 8, (data.drop 12).take (data.length - 14)⟩ ∧
    (leU32At data 8 ≠ 0 ∧ leU32At data 8 ≠ 2 ∧ leU32At data 8 ≠ 3 ∧ leU32At data 8 ≠ 5 →
      packet.Unmarshal data = Except.error "invalid packet type") := by
  have hany : ((data.drop 12).take (data.length - 14)).any
      (fun x => decide (maxASCII < x)) = false := by
    rw [List.any_eq_false]
    intro b hb
    simpa using hascii b hb
  constructor
  · simp only [Unmarshal]
    rw [if_neg hok, if_neg (by omega), if_neg (by simp [hany])]
  · intro hk
    simp only [packet.Unmarshal]
    rw [if_neg hok, if_neg (by omega), if_pos hk]

/-- Witness for the amended kind-handling claim at the kind-1 input. -/
theorem unmarshal_kind_handling_witness :
    Unmarshal [10, 0, 0, 0, 7, 0, 0, 0, 1, 0, 0, 0, 0, 0] =
      Except.ok { Length := 10, ID := 7, Kind := 1, Payload := [] } ∧
    packet.Unmarshal [10, 0, 0, 0, 7, 0, 0, 0, 1, 0, 0, 0, 0, 0] =
      Except.error "invalid packet type" := by
  have h := unmarshal_kind_handling [10, 0, 0, 0, 7, 0, 0, 0, 1, 0, 0, 0, 0, 0]
    (by decide) (by decide) (by decide)
  exact ⟨h.1, h.2 (by decide)⟩

/-- Claim C6: `Unmarshal` rejects every input that is shorter than 14 bytes, or does
not end in two zero bytes, or whose byte count differs from the decoded length field
plus 4 (stated for genuine Go inputs: byte values below 256 and a slice length
representable as `uint32`). -/
theorem unmarshal_rejects_malformed (data : List Nat)
    (hbytes : ∀ b ∈ data, b < 256) (hsz : data.length < 4294967296)
    (hbad : data.length < 14 ∨ data.getD (data.length - 1) 0 ≠ 0 ∨
      data.getD (data.length - 2) 0 ≠ 0 ∨ data.length ≠ leU32At data 0 + 4) :
    ∃ e, Unmarshal data = Except.error e := by
  by_cases h1 : data.length < 14 ∨ data.getD (data.length - 1) 0 ≠ 0 ∨
      data.getD (data.length - 2) 0 ≠ 0
  · exact ⟨_, by simp only [Unmarshal]; rw [if_pos h1]⟩
  · have hne : data.length ≠ leU32At data 0 + 4 := by tauto
    have hlt := leU32At_lt data 0 hbytes
    have h1' := h1
    push_neg at h1'
    refine ⟨"incorrect packet length", ?_⟩
    simp only [Unmarshal]
    rw [if_neg h1, if_pos (by omega)]

/-- Witness for malformed-input rejection at the 3-byte input `[1, 2, 3]`. -/
theorem unmarshal_rejects_malformed_witness :
    ∃ e, Unmarshal [1, 2, 3] = Except.error e :=
  unmarshal_rejects_malformed [1, 2, 3] (by decide) (by decide) (by decide)

/-- Claim C7 counterexample: the example packet `{length:14, id:1, kind:Command,
payload:"ok"}` violates the length invariant (`len("ok") + 10 = 12`, not 14), so
`Marshal` rejects it with an error instead of yielding the claimed 16 bytes. -/
theorem marshal_spec_example_rejected :
    Marshal (some { Length := 14, ID := 1, Kind := CommandPacket, Payload := strBytes "ok" }) =
      Except.error "invalid packet provided" := by
  rfl

/-- Claim C7 (amended): encoding serializes `Length`, `ID`, `Kind` as little-endian
32-bit integers followed by the raw payload bytes and two trailing zero bytes; in
particular the well-formed packet `{length:12, id:1, kind:Command, payload:"ok"}`
(the length invariant forces 12, not the claimed 14) yields exactly the 16 bytes
`0C 00 00 00 01 00 00 00 02 00 00 00 6F 6B 00 00`. -/
theorem marshal_wire_format :
    (∀ p : Packet, p.Length = (p.Payload.length + 10) % 4294967296 →
      (∀ b ∈ p.Payload, b ≤ maxASCII) →
      Marshal (some p) =
        Except.ok (u32le p.Length ++ u32le (intToUInt32 p.ID) ++ u32le p.Kind ++
          p.Payload ++ [0, 0])) ∧
    Marshal (some { Length := 12, ID := 1, Kind := CommandPacket, Payload := strBytes "ok" }) =
      Except.ok [0x0C, 0, 0, 0, 0x01, 0, 0, 0, 0x02, 0, 0, 0, 0x6F, 0x6B, 0, 0] := by
  constructor
  · intro p h1 h2
    obtain ⟨L, I, K, P⟩ := p
    exact marshal_ok L I K P h1 h2
  · rfl

/-- Witness for the serialization format at the corrected example packet. -/
theorem marshal_wire_format_witness :
    Marshal (some { Length := 12, ID := 1, Kind := CommandPacket, Payload := strBytes "ok" }) =
      Except.ok (u32le 12 ++ u32le (intToUInt32 1) ++ u32le 2 ++ strBytes "ok" ++ [0, 0]) :=
  marshal_wire_format.1
    { Length := 12, ID := 1, Kind := CommandPacket, Payload := strBytes "ok" }
    (by decide) (by decide)

/-- Claim C10: the packet `{12, 1, Response, [0x00, 0x00]}` is accepted by `Marshal`
(zero bytes are within the single-byte range), but the background reader's
byte-at-a-time framing stops after the first 14 bytes of its 16-byte encoding —
the two zero payload bytes are mistaken for the trailing null terminator — so the
accumulated bytes fail `Unmarshal`'s length check and `readPacket` returns the
`incorrect packet length` error instead of the packet. -/
theorem framing_splits_double_zero_payload :
    Marshal (some { Length := 12, ID := 1, Kind := ResponsePacket, Payload := [0, 0] }) =
      Except.ok [12, 0, 0, 0, 1, 0, 0, 0, 0, 0, 0, 0, 0, 0, 0, 0] ∧
    readPacket [12, 0, 0, 0, 1, 0, 0, 0, 0, 0, 0, 0, 0, 0, 0, 0] =
      Except.error "incorrect packet length" :=
  ⟨rfl, rfl⟩

end rcon

namespace rcon

/-! ## Connection-layer lemmas -/

theorem readPacketsAux_snd (d : List Packet) (st : ConnSt) (acc : List Packet) :
    (readPacketsAux st acc d).2 =
      acc ++ d.takeWhile (fun p => decide (p.Payload ≠ TerminalResponse)) := by
  induction d generalizing st acc with
  | nil => simp [readPacketsAux]
  | cons p rest ih =>
    simp only [readPacketsAux, List.takeWhile_cons]
    by_cases h : p.Payload = TerminalResponse
    · rw [if_pos h]
      simp [h]
    · rw [if_neg h]
      rw [ih]
      simp [h, List.append_assoc]

theorem foldl_payload_append (l : List Packet) (acc : List Nat) :
    l.foldl (fun a p => a ++ p.Payload) acc = acc ++ (l.map Packet.Payload).flatten := by
  induction l generalizing acc with
  | nil => simp
  | cons p t ih => simp [ih, List.append_assoc]

theorem takeWhile_frags (frags : List Packet) (sentinel : Packet) (rest : List Packet)
    (hfr : ∀ p ∈ frags, p.Payload ≠ TerminalResponse)
    (hs : sentinel.Payload = TerminalResponse) :
    (frags ++ sentinel :: rest).takeWhile (fun p => decide (p.Payload ≠ TerminalResponse)) =
      frags := by
  induction frags with
  | nil => simp [List.takeWhile_cons, hs]
  | cons p t ih =>
    simp only [List.cons_append, List.takeWhile_cons]
    rw [if_pos (by simpa using hfr p (by simp))]
    rw [ih (fun q hq => hfr q (by simp [hq]))]

end rcon

namespace rcon

/-- Claim C2: if the server replies to a command with a sequence of response packets
followed by a packet whose payload is the termination sentinel (anything delivered
after the sentinel is ignored), `SendCommand` returns exactly the concatenation of
the payloads of the packets delivered strictly before the sentinel, in arrival
order; the sentinel's payload is not part of the result. -/
theorem sendCommand_returns_fragment_concat (st : ConnSt) (command : List Nat)
    (frags : List Packet) (sentinel : Packet) (rest : List Packet)
    (hopen : st.isClosed = false)
    (hcmd : ∀ b ∈ command, b ≤ maxASCII)
    (hfr : ∀ p ∈ frags, p.Payload ≠ TerminalResponse)
    (hs : sentinel.Payload = TerminalResponse) :
    (SendCommand st command (frags ++ sentinel :: rest)).2 =
      Except.ok ((frags.map Packet.Payload).flatten) := by
  simp only [SendCommand, hopen, Bool.false_eq_true, if_false, NewPacket, writePacket]
  rw [marshal_ok _ _ _ _ rfl hcmd]
  simp only [readPackets, readPacketsAux_snd, List.nil_append]
  rw [takeWhile_frags frags sentinel rest hfr hs]
  rw [foldl_payload_append]
  simp

end rcon

namespace rcon

theorem authenticate_eval (st : ConnSt) (password : List Nat) (delivered : List Packet)
    (hpw : ∀ b ∈ password, b ≤ maxASCII) :
    (authenticate st password delivered).2 = none ↔
      ∃ q, delivered.takeWhile (fun p => decide (p.Payload ≠ TerminalResponse)) = [q] ∧
        q.ID = int32wrap (st.count + 1) := by
  simp only [authenticate, NewPacket, writePacket]
  rw [marshal_ok _ _ _ _ rfl hpw]
  simp only [readPackets, readPacketsAux_snd, List.nil_append]
  cases hg : delivered.takeWhile (fun p => decide (p.Payload ≠ TerminalResponse)) with
  | nil => simp
  | cons q tail =>
    cases tail with
    | nil =>
      dsimp only
      by_cases hid : q.ID = int32wrap (st.count + 1)
      · rw [if_neg (by simpa using hid)]
        simp [hid]
      · rw [if_pos (by simpa using hid)]
        simp [hid]
    | cons q2 t2 => simp

end rcon

namespace rcon

/-- Claim C3: authentication succeeds — `NewConn` hands a connection object to the
caller — if and only if the response group read for the login request consists of
exactly one packet whose `ID` equals the login request packet's id
(`int32wrap (count + 1)`, the incremented process-wide counter); in every other
case (mismatched id, zero packets, or more than one packet) no connection object
is returned and the connection, transport included, is closed. -/
theorem newConn_authentication (count : Int) (password : List Nat) (delivered : List Packet)
    (hpw : ∀ b ∈ password, b ≤ maxASCII) :
    ((NewConn count password delivered).2 ≠ none ↔
      ∃ q, delivered.takeWhile (fun p => decide (p.Payload ≠ TerminalResponse)) = [q] ∧
        q.ID = int32wrap (count + 1)) ∧
    ((NewConn count password delivered).2 = none →
      (NewConn count password delivered).1.isClosed = true ∧
      (NewConn count password delivered).1.transportClosed = true) := by
  have hiff := authenticate_eval ⟨false, false, count, []⟩ password delivered hpw
  rcases hA : authenticate ⟨false, false, count, []⟩ password delivered with ⟨stA, oA⟩
  rw [hA] at hiff
  simp only [NewConn]
  rw [hA]
  cases oA with
  | none =>
    refine ⟨?_, ?_⟩
    · simpa using hiff
    · intro h
      simp at h
  | some e =>
    refine ⟨?_, ?_⟩
    · simp only []
      constructor
      · intro h
        simp at h
      · intro h
        have := hiff.mpr h
        simp at this
    · intro _
      exact ⟨rfl, rfl⟩

/-- Witness for the authentication criterion: with counter 0 the login request has id
1; a single delivered response packet with id 1 yields a connection object. -/
theorem newConn_authentication_witness :
    (NewConn 0 (strBytes "pw") [⟨11, 1, 0, strBytes "a"⟩]).2 ≠ none :=
  (newConn_authentication 0 (strBytes "pw") [⟨11, 1, 0, strBytes "a"⟩] (by decide)).1.mpr
    ⟨⟨11, 1, 0, strBytes "a"⟩, by decide, by decide⟩

/-- Claim C8: after `Close`, `IsClosed` reports true, and any subsequent
`SendCommand` on the closed connection fails with the `connection closed` error
while leaving the state — in particular the log of transport writes — untouched
and consuming nothing from the reader (no transport I/O). -/
theorem close_then_sendCommand (st : ConnSt) (command : List Nat) (delivered : List Packet) :
    IsClosed (Close st) = true ∧
    SendCommand (Close st) command delivered = (Close st, Except.error "connection closed") :=
  ⟨rfl, rfl⟩

end rcon

namespace rcon

/-- Witness for the fragmentation claim: three response fragments "a", "b", "c"
followed by the sentinel yield the concatenation of the three payloads. -/
theorem sendCommand_returns_fragment_concat_witness :
    (SendCommand ⟨false, false, 0, []⟩ (strBytes "list")
      ([⟨11, 1, 0, strBytes "a"⟩, ⟨11, 1, 0, strBytes "b"⟩, ⟨11, 1, 0, strBytes "c"⟩] ++
        ⟨27, 1, 0, TerminalResponse⟩ :: [])).2 =
      Except.ok ((([⟨11, 1, 0, strBytes "a"⟩, ⟨11, 1, 0, strBytes "b"⟩,
        ⟨11, 1, 0, strBytes "c"⟩] : List Packet).map Packet.Payload).flatten) :=
  sendCommand_returns_fragment_concat ⟨false, false, 0, []⟩ (strBytes "list")
    [⟨11, 1, 0, strBytes "a"⟩, ⟨11, 1, 0, strBytes "b"⟩, ⟨11, 1, 0, strBytes "c"⟩]
    ⟨27, 1, 0, TerminalResponse⟩ [] rfl (by decide) (by decide) rfl

/-- Witness for the closed-connection semantics at a concrete connection state. -/
theorem close_then_sendCommand_witness :
    IsClosed (Close ⟨false, false, 0, []⟩) = true ∧
    SendCommand (Close ⟨false, false, 0, []⟩) (strBytes "x") [] =
      (Close ⟨false, false, 0, []⟩, Except.error "connection closed") :=
  close_then_sendCommand ⟨false, false, 0, []⟩ (strBytes "x") []

end rcon
